import Mathlib

/-!
Verification of the arquea entity-access layer: a shallow embedding of the
filter-criteria compiler (`src/sql/crud_filter_sqlalchemy.py`), the SQLAlchemy
repository (`src/sql/crud_repository_interface_sqlalchemy.py`), the CRUD facade
(`src/sql/crud_facade_interface_sqlalchemy.py`) and the error taxonomy and
boundary (`src/exc/exc.py`, `src/exc/db_exceptions_decorators.py`).

Python values are modelled by an inductive `Value` type; rows of the backing
table are association lists from column names to values; a SQLAlchemy `Select`
is modelled by a `Query` record holding the attached filter, offset, limit and
order-by clauses, together with an executable SQL semantics `Query.run` over a
list of rows.  Python runtime failures (KeyError, ValueError, TypeError,
AttributeError) and the arquea error taxonomy are a single `Error` sum, and
fallible code returns `Except Error`.
-/

deriving instance DecidableEq for Except

namespace Arquea

/-- A scalar Python value (row columns hold scalars; list-valued filter values
such as the argument of `in_` hold lists of scalars). -/
inductive Prim where
  | pnone : Prim
  | pbool : Bool → Prim
  | pint : Int → Prim
  | pstr : String → Prim
deriving DecidableEq

/-- A Python value as it flows through the filter engine and rows. -/
inductive Value where
  | vnone : Value
  | vbool : Bool → Value
  | vint : Int → Value
  | vstr : String → Value
  | vlist : List Prim → Value
deriving DecidableEq

/-- View a scalar as a `Value` (for membership tests of `in_` / `not_in`). -/
def Prim.toValue : Prim → Value
  | .pnone => .vnone
  | .pbool b => .vbool b
  | .pint n => .vint n
  | .pstr s => .vstr s

/-- Errors: the Python builtin exceptions the embedded code can raise, plus the
arquea taxonomy from `src/exc/exc.py` (`ResourceError` and its subclasses
`ResourceUniqueError`, `ResourceMissingError`, all deriving `ArqueaError`). -/
inductive Error where
  | keyError : String → Error
  | valueError : String → Error
  | typeError : String → Error
  | attributeError : String → Error
  | resourceError : String → String → Error
  | resourceUnique : String → String → Error
  | resourceMissing : String → String → Error
deriving DecidableEq

/-- Whether the error is an `ArqueaError` (the `isinstance(error, ArqueaError)`
test of the boundary): exactly the three resource errors. -/
def Error.isArquea : Error → Bool
  | .resourceError _ _ => true
  | .resourceUnique _ _ => true
  | .resourceMissing _ _ => true
  | _ => false

/-- The description `str(error)` used when the boundary wraps a failure. -/
def Error.descr : Error → String
  | .keyError m => m
  | .valueError m => m
  | .typeError m => m
  | .attributeError m => m
  | .resourceError r p => r ++ ": " ++ p
  | .resourceUnique r p => r ++ ": " ++ p
  | .resourceMissing r p => r ++ ": " ++ p

/-- Modelled from the spec: `conf/conf_types.py` is not under `src/`; per the
spec (section 4.1) the combinator argument is the two-valued AND/OR logical
operator enum `FilterOperator`. -/
inductive FilterOperator where
  | AND : FilterOperator
  | OR : FilterOperator
deriving DecidableEq

/-- Sort direction (`Direction` StrEnum in `crud_filter_sqlalchemy.py`). -/
inductive Direction where
  | ASC : Direction
  | DESC : Direction
deriving DecidableEq

/- ## Character-list string operations

Lean core string functions do not reduce inside the kernel, so the Python
string operations used by the source (`in`, `split`, `replace`, `startswith`)
are implemented structurally over `List Char` with the same semantics. -/

/-- Python `"__" in s` on the character list of `s`. -/
def hasDunder : List Char → Bool
  | '_' :: '_' :: _ => true
  | _ :: rest => hasDunder rest
  | [] => false

/-- Python `"___" in s` on the character list of `s`. -/
def hasTunder : List Char → Bool
  | '_' :: '_' :: '_' :: _ => true
  | _ :: rest => hasTunder rest
  | [] => false

/-- Python `s.split("__")`: split at each non-overlapping occurrence of a
double underscore, scanning left to right. -/
def splitDunderAux : List Char → List Char → List (List Char)
  | '_' :: '_' :: rest, acc => acc.reverse :: splitDunderAux rest []
  | c :: rest, acc => splitDunderAux rest (c :: acc)
  | [], acc => [acc.reverse]

/-- Python `s.split("___")`: split at each non-overlapping occurrence of a
triple underscore, scanning left to right. -/
def splitTunderAux : List Char → List Char → List (List Char)
  | '_' :: '_' :: '_' :: rest, acc => acc.reverse :: splitTunderAux rest []
  | c :: rest, acc => splitTunderAux rest (c :: acc)
  | [], acc => [acc.reverse]

/-- Python `s.split("__")` at the `String` level. -/
def pySplitDunder (s : String) : List String :=
  (splitDunderAux s.data []).map fun l => ⟨l⟩

/-- Python `s.split("___")` at the `String` level. -/
def pySplitTunder (s : String) : List String :=
  (splitTunderAux s.data []).map fun l => ⟨l⟩

/-- Python `"__" in s` at the `String` level. -/
def pyHasDunder (s : String) : Bool := hasDunder s.data

/-- Python `"___" in s` at the `String` level. -/
def pyHasTunder (s : String) : Bool := hasTunder s.data

/-- Python `"%" in s`. -/
def pyHasPercent (s : String) : Bool := s.data.any fun c => c = '%'

/-- Python `s.replace(c, "")` for a single-character pattern: removes every
occurrence of the character. -/
def pyRemoveChar (c : Char) (s : String) : String :=
  ⟨s.data.filter fun d => d ≠ c⟩

/-- Python `s.startswith(c)` for a single-character prefix. -/
def pyStartsWith (c : Char) (s : String) : Bool :=
  match s.data with
  | d :: _ => d = c
  | [] => false

/- ## Filter-criteria compiler (`src/sql/crud_filter_sqlalchemy.py`) -/

/-- `_backward_compatible_value_for_like_and_ilike`: wrap the value in `%`
unless a `%` is already present. -/
def backward_compatible_value_for_like_and_ilike (value : String) : String :=
  if pyHasPercent value then value else "%" ++ value ++ "%"

/-- The `orm_operator_transformer` dict: maps an operator suffix to the lambda
transforming the filter value into the ORM comparator name and its argument.
A missing key is `none` (the Python dict lookup raises `KeyError`); `like` and
`ilike` applied to a non-string raise `TypeError` inside the lambda, since
Python `in` requires an iterable. -/
def orm_operator_transformer (op : String) :
    Option (Value → Except Error (String × Value)) :=
  if op = "neq" then some fun value => .ok ("__ne__", value)
  else if op = "gt" then some fun value => .ok ("__gt__", value)
  else if op = "gte" then some fun value => .ok ("__ge__", value)
  else if op = "in" then some fun value => .ok ("in_", value)
  else if op = "isnull" then some fun value =>
    .ok (if value = .vbool true then ("is_", .vnone) else ("is_not", .vnone))
  else if op = "isempty" then some fun value =>
    .ok (if value = .vbool true then ("__eq__", .vstr "") else ("__ne__", .vstr ""))
  else if op = "lt" then some fun value => .ok ("__lt__", value)
  else if op = "lte" then some fun value => .ok ("__le__", value)
  else if op = "like" then some fun value =>
    match value with
    | .vstr s => .ok ("like", .vstr (backward_compatible_value_for_like_and_ilike s))
    | _ => .error (.typeError "argument of type is not iterable")
  else if op = "ilike" then some fun value =>
    match value with
    | .vstr s => .ok ("ilike", .vstr (backward_compatible_value_for_like_and_ilike s))
    | _ => .error (.typeError "argument of type is not iterable")
  else if op = "not" then some fun value => .ok ("is_not", value)
  else if op = "not_in" then some fun value => .ok ("not_in", value)
  else none

/-- The key set of `orm_operator_transformer` (the registered operator set). -/
def ormOperatorKeys : List String :=
  ["neq", "gt", "gte", "in", "isnull", "isempty", "lt", "lte", "like", "ilike",
   "not", "not_in"]

/-- `get_operator`: if the key contains `__`, split on `__` (every occurrence,
exactly as Python `str.split` with no maxsplit) and unpack into name and
operator — three or more parts raise `ValueError`; then look the operator up in
`orm_operator_transformer` — a missing key raises `KeyError`.  A key without
`__` compiles to `__eq__` on the unchanged key and value. -/
def get_operator (filter_name : String) (filter_value : Value) :
    Except Error (String × String × Value) :=
  if pyHasDunder filter_name then
    match pySplitDunder filter_name with
    | [name, op] =>
      match orm_operator_transformer op with
      | some f => do
        let (oper, value) ← f filter_value
        .ok (oper, name, value)
      | none => .error (.keyError op)
    | _ => .error (.valueError "too many values to unpack (expected 2)")
  else
    .ok ("__eq__", filter_name, filter_value)

/-- A relationship declared on the entity: its attribute name, its configured
lazy-load strategy string, and the attribute names of the related class. -/
structure RelInfo where
  name : String
  lazy : String
  attrs : List String
deriving DecidableEq

/-- The entity-class metadata the compiler introspects: column names and
declared relationships. -/
structure Model where
  fields : List String
  rels : List RelInfo
deriving DecidableEq

/-- Every attribute name resolvable by `getattr` on the entity class. -/
def Model.attrNames (m : Model) : List String :=
  m.fields ++ m.rels.map RelInfo.name

/-- A load-strategy marker (`joinedload`/`selectinload` applied to a
relationship attribute), attached to the query via `.options(...)`. -/
structure Load where
  strategy : String
  rel : String
deriving DecidableEq

/-- A compiled binary predicate. `bin` references a column of the base entity;
`binJoin` references a column of the named related class (the expression the
join path builds against `column.property.mapper.class_`). -/
inductive Criterion where
  | bin : String → String → Value → Criterion
  | binJoin : String → String → String → Value → Criterion
deriving DecidableEq

/-- The combined predicate `or_(*criteria)` / `and_(*criteria)`. -/
inductive Clause where
  | and_ : List Criterion → Clause
  | or_ : List Criterion → Clause
deriving DecidableEq

/-- `get_column_criteria` against an attribute-name environment (`getattr` on
the class raises `AttributeError` when the name is absent): compile the
operator, resolve the field, and build the binary expression. -/
def get_column_criteria (attrs : List String) (filter_name : String)
    (filter_value : Value) : Except Error Criterion := do
  let (oper, field_name, field_value) ← get_operator filter_name filter_value
  if field_name ∈ attrs then .ok (.bin oper field_name field_value)
  else .error (.attributeError field_name)

/-- The key set of the `orm_lazy_load` dict. -/
def ormLazyLoadKeys : List String := ["joined", "selectin"]

/-- `get_lazy_load`: the attribute must be a relationship (else
`AttributeError`), and its configured lazy string must be a key of
`orm_lazy_load` (else `KeyError`). -/
def get_lazy_load (model : Model) (column_name : String) :
    Except Error (Load × RelInfo) :=
  match model.rels.find? (fun rel => rel.name == column_name) with
  | some rel =>
    if rel.lazy ∈ ormLazyLoadKeys then .ok (⟨rel.lazy, rel.name⟩, rel)
    else .error (.keyError rel.lazy)
  | none => .error (.attributeError ("Invalid filtering attribute: " ++ column_name))

/-- `get_join_column_criteria`: split the key on `___` (Python `str.split`,
so three or more parts raise `ValueError`), resolve the relationship and its
load strategy, and compile the remainder against the related class's
attributes; the resulting expression references the related class's column. -/
def get_join_column_criteria (model : Model) (filter_name : String)
    (filter_value : Value) : Except Error (Criterion × Load) :=
  match pySplitTunder filter_name with
  | [join_column, rest] => do
    let (lazy_load, rel) ← get_lazy_load model join_column
    let c ← get_column_criteria rel.attrs rest filter_value
    match c with
    | .bin oper f v => .ok (.binJoin rel.name oper f v, lazy_load)
    | c => .ok (c, lazy_load)
  | _ => .error (.valueError "too many values to unpack (expected 2)")

/-- `get_criteria`: compile every key in order; keys containing `___` go
through the join path and contribute a load marker. -/
def get_criteria (model : Model) (filters : List (String × Value)) :
    Except Error (List Criterion × List Load) :=
  match filters with
  | [] => .ok ([], [])
  | (filter_name, filter_value) :: rest =>
    if pyHasTunder filter_name then do
      let (c, l) ← get_join_column_criteria model filter_name filter_value
      let (cs, ls) ← get_criteria model rest
      .ok (c :: cs, l :: ls)
    else do
      let c ← get_column_criteria model.attrNames filter_name filter_value
      let (cs, ls) ← get_criteria model rest
      .ok (c :: cs, ls)

/-- `get_filter_criteria`: OR-combine when the operator is `FilterOperator.OR`,
AND-combine otherwise. -/
def get_filter_criteria (model : Model) (filters : List (String × Value))
    (operator : FilterOperator) : Except Error (Clause × List Load) := do
  let (criteria, join_criteria) ← get_criteria model filters
  .ok ((if operator = .OR then .or_ criteria else .and_ criteria), join_criteria)

/-- One compiled sort clause (`column.asc()` / `column.desc()`). -/
structure SortClause where
  field : String
  dir : Direction
deriving DecidableEq

/-- `get_sort_criteria`: direction is descending exactly when the token starts
with `-`; the field name is the token with every `-` and `+` removed (Python
`str.replace`); names that do not resolve to a sortable column raise
`AttributeError`, which is caught and the token silently dropped. -/
def get_sort_criteria (model : Model) (ordering_values : List String) :
    List SortClause :=
  match ordering_values with
  | [] => []
  | sort_name :: rest =>
    let direction := if pyStartsWith '-' sort_name then Direction.DESC else Direction.ASC
    let field_name := pyRemoveChar '+' (pyRemoveChar '-' sort_name)
    if field_name ∈ model.fields then
      ⟨field_name, direction⟩ :: get_sort_criteria model rest
    else
      get_sort_criteria model rest

/- ## Rows and SQL evaluation semantics

A row of the backing table is an association list from column names to
values; columns of a related row reached through a join-qualified filter are
stored under the qualified name `rel.column`. -/

/-- A persisted row. -/
abbrev Row := List (String × Value)

/-- A filter map, in insertion order (Python dicts are ordered). -/
abbrev Filters := List (String × Value)

/-- Column lookup on a row; a column never set reads as SQL NULL. -/
def rowGet (r : Row) (f : String) : Value :=
  match r.find? (fun kv => kv.1 == f) with
  | some kv => kv.2
  | none => Value.vnone

/-- Strict SQL ordering on scalar values; incomparable pairs (including
anything against NULL) compare false. -/
def valueLt : Value → Value → Bool
  | .vint a, .vint b => decide (a < b)
  | .vstr a, .vstr b => decide (a < b)
  | .vbool a, .vbool b => decide (a < b)
  | _, _ => false

/-- Non-strict SQL ordering; NULL is never ≤ anything. -/
def valueLe (a b : Value) : Bool :=
  a != .vnone && b != .vnone && (valueLt a b || a == b)

/-- SQL `LIKE` pattern matching: `%` matches any run, `_` any one character. -/
def likeMatch : List Char → List Char → Bool
  | [], [] => true
  | [], _ :: _ => false
  | '%' :: ps, [] => likeMatch ps []
  | '%' :: ps, t :: ts => likeMatch ps (t :: ts) || likeMatch ('%' :: ps) ts
  | _ :: _, [] => false
  | p :: ps, t :: ts => (p = t || p = '_') && likeMatch ps ts
termination_by p t => (p.length, t.length)

/-- Evaluation of one ORM comparator applied to the column value `x` and the
compiled argument `v`, with SQL three-valued logic collapsed to "row matches":
comparisons involving NULL do not match, except the null-safe `is_`/`is_not`
and equality against NULL (which SQLAlchemy renders as IS NULL). -/
def evalOpVal (oper : String) (x v : Value) : Bool :=
  if oper = "__eq__" then x == v
  else if oper = "__ne__" then
    match v with
    | .vnone => x != .vnone
    | _ => x != .vnone && x != v
  else if oper = "__gt__" then valueLt v x
  else if oper = "__ge__" then valueLe v x
  else if oper = "__lt__" then valueLt x v
  else if oper = "__le__" then valueLe x v
  else if oper = "in_" then
    match v with
    | .vlist l => x != .vnone && l.any (fun p => p.toValue == x)
    | _ => false
  else if oper = "not_in" then
    match v with
    | .vlist l => x != .vnone && !(l.any fun p => p.toValue == x)
    | _ => false
  else if oper = "is_" then x == v
  else if oper = "is_not" then x != v
  else if oper = "like" then
    match x, v with
    | .vstr s, .vstr p => likeMatch p.data s.data
    | _, _ => false
  else if oper = "ilike" then
    match x, v with
    | .vstr s, .vstr p => likeMatch (p.data.map Char.toLower) (s.data.map Char.toLower)
    | _, _ => false
  else false

/-- Whether a row satisfies one compiled binary expression. -/
def Criterion.eval (c : Criterion) (r : Row) : Bool :=
  match c with
  | .bin oper field v => evalOpVal oper (rowGet r field) v
  | .binJoin rel oper field v => evalOpVal oper (rowGet r (rel ++ "." ++ field)) v

/-- Whether a row satisfies a combined clause.  An `and_`/`or_` over an empty
criteria list renders as an empty boolean clause list, i.e. no WHERE
constraint, so it holds for every row. -/
def Clause.eval (c : Clause) (r : Row) : Bool :=
  match c with
  | .and_ cs => cs.all fun c => c.eval r
  | .or_ [] => true
  | .or_ cs => cs.any fun c => c.eval r

/- ## Query objects (`sqlalchemy.Select`) and their execution -/

/-- The parts of a built `Select`: attached filter clauses, load-strategy
options, and the optional OFFSET, LIMIT and ORDER BY clauses. -/
structure Query where
  clauses : List Clause
  options : List Load
  offsetClause : Option Int
  limitClause : Option Int
  orderBy : List SortClause
deriving DecidableEq

/-- A row satisfies every attached filter clause. -/
def Query.matchesRow (q : Query) (r : Row) : Bool :=
  q.clauses.all fun c => c.eval r

/-- The ORDER BY comparison induced by a clause list: compare by the first
clause whose column values differ. -/
def rowLe (clauses : List SortClause) (a b : Row) : Bool :=
  match clauses with
  | [] => true
  | c :: rest =>
    let va := rowGet a c.field
    let vb := rowGet b c.field
    if va == vb then rowLe rest a b
    else
      match c.dir with
      | .ASC => valueLe va vb
      | .DESC => valueLe vb va

/-- Stable insertion of a row into a sorted list. -/
def insertRow (le : Row → Row → Bool) (a : Row) : List Row → List Row
  | [] => [a]
  | b :: l => if le a b then a :: b :: l else b :: insertRow le a l

/-- Stable sort of the result rows (the deterministic model of ORDER BY). -/
def sortRowsBy (le : Row → Row → Bool) : List Row → List Row
  | [] => []
  | a :: l => insertRow le a (sortRowsBy le l)

/-- SQL execution of a built `Select` over the table contents: WHERE filters
the rows, then ORDER BY (when the clause is present), then OFFSET, then
LIMIT — SQL applies these clauses in that order no matter the order in which
they were attached to the `Select`. -/
def Query.run (q : Query) (db : List Row) : List Row :=
  let filtered := db.filter q.matchesRow
  let sorted :=
    match q.orderBy with
    | [] => filtered
    | _ => sortRowsBy (rowLe q.orderBy) filtered
  let paged :=
    match q.offsetClause with
    | some o => sorted.drop o.toNat
    | none => sorted
  match q.limitClause with
  | some l => paged.take l.toNat
  | none => paged

/- ## Repository (`src/sql/crud_repository_interface_sqlalchemy.py`)

The repository owns one table, modelled as the list of its rows in store
order; `utc_now()` is passed in explicitly where a method stamps time. -/

/-- Python truthiness of an `int | None`: `None` and `0` are falsy. -/
def optIntTruthy : Option Int → Bool
  | some n => n != 0
  | none => false

/-- `_apply_paginated_query`: negative offsets and limits below 1 are first
normalised to `None`; the OFFSET clause is attached only when the normalised
offset is truthy, the LIMIT clause only when the normalised limit is truthy
(so the literal `0` never attaches a clause), and ORDER BY only when at least
one sort token resolved. -/
def apply_paginated_query (model : Model) (query : Query) (offset : Option Int)
    (limit : Option Int) (sort_by : Option (List String)) : Query :=
  let off :=
    match offset with
    | some o => if o ≠ 0 ∧ o < 0 then none else some o
    | none => none
  let lim :=
    match limit with
    | some l => if l ≠ 0 ∧ l < 1 then none else some l
    | none => none
  let srt := get_sort_criteria model (sort_by.getD [])
  let q1 := if optIntTruthy off then { query with offsetClause := off } else query
  let q2 := if optIntTruthy lim then { q1 with limitClause := lim } else q1
  if srt ≠ [] then { q2 with orderBy := srt } else q2

/-- `_get_filter_query`: compile the mandatory group and the user filter group
— both with `operator or FilterOperator.OR` — union the load markers, and
attach both clauses to the base select. -/
def get_filter_query (model : Model) (mandatory : Option Filters)
    (filters : Option Filters) (operator : Option FilterOperator) :
    Except Error Query := do
  let (mclause, mjoins) ←
    get_filter_criteria model (mandatory.getD []) (operator.getD .OR)
  let (fclause, fjoins) ←
    get_filter_criteria model (filters.getD []) (operator.getD .OR)
  let opts := (mjoins ++ fjoins).eraseDups
  .ok ⟨[fclause, mclause], opts, none, none, []⟩

/-- `_get_query`: filter query plus pagination and sort clauses. -/
def get_query (model : Model) (mandatory : Option Filters)
    (filters : Option Filters) (operator : Option FilterOperator)
    (offset : Option Int) (limit : Option Int) (sort_by : Option (List String)) :
    Except Error Query := do
  let q ← get_filter_query model mandatory filters operator
  .ok (apply_paginated_query model q offset limit sort_by)

/-- `get_all` (defaults at the call sites: offset 0, limit 15): build the full
query and return all its rows. -/
def get_all (model : Model) (db : List Row) (offset : Int) (limit : Int)
    (sort_by : Option (List String)) (operator : Option FilterOperator)
    (mandatory : Option Filters) (filters : Filters) :
    Except Error (List Row) := do
  let query ← get_query model mandatory (some filters) operator (some offset)
    (some limit) sort_by
  .ok (query.run db)

/-- `count_by`: count over the unpaginated filter query wrapped in a count
subquery. -/
def count_by (model : Model) (db : List Row) (operator : Option FilterOperator)
    (mandatory : Option Filters) (filters : Filters) : Except Error Nat := do
  let query ← get_filter_query model mandatory (some filters) operator
  .ok (query.run db).length

/-- `get_and_count`: fetch the rows of the paginated query and compute the
count over the unpaginated base query. -/
def get_and_count (model : Model) (db : List Row) (offset : Int) (limit : Int)
    (sort_by : Option (List String)) (operator : Option FilterOperator)
    (mandatory : Option Filters) (filters : Filters) :
    Except Error (List Row × Nat) := do
  let query ← get_filter_query model mandatory (some filters) operator
  let query_paginated := apply_paginated_query model query (some offset)
    (some limit) sort_by
  let entities := query_paginated.run db
  let count := (query.run db).length
  .ok (entities, count)

/-- `get_by_key`: `session.get(model, key)`, the primary-key lookup. -/
def get_by_key (db : List Row) (key : Value) : Option Row :=
  db.find? fun r => rowGet r "id" == key

/-- `get_by_key_or_fail`: returns the row when the key matches; otherwise the
source executes `raise (self.resource, f"Resource with id '{key}' not found")`
— it raises the tuple itself, not a `ResourceMissingError` applied to it, and
in Python 3 raising a non-exception fails with `TypeError: exceptions must
derive from BaseException`, so neither the resource name nor the message
reaches the caller as a typed error. -/
def get_by_key_or_fail (resource : String) (db : List Row) (key : Value) :
    Except Error Row :=
  match get_by_key db key with
  | some entity => .ok entity
  | none => .error (.typeError "exceptions must derive from BaseException")

/-- Abstraction of the f-string interpolation of the criteria dict used in
the repository's error messages. -/
def filtersRepr (filters : Filters) : String :=
  String.intercalate ", " (filters.map fun kv => kv.1)

/-- `get_one_by` (defaults offset 0, limit 15): the operator defaults to AND
here, and `session.scalar` yields the first row of the executed query, or
`None` when the result is empty. -/
def get_one_by (model : Model) (db : List Row) (offset : Int) (limit : Int)
    (sort_by : Option (List String)) (operator : Option FilterOperator)
    (mandatory : Option Filters) (filters : Filters) :
    Except Error (Option Row) := do
  let query ← get_query model mandatory (some filters)
    (some (operator.getD .AND)) (some offset) (some limit) sort_by
  .ok (query.run db).head?

/-- `get_one_by_or_fail` (defaults offset 0, limit 15): `.one()` on the
executed query returns the single row, raises `NoResultFound` on an empty
result (wrapped into `ResourceMissingError`) and `MultipleResultsFound` on two
or more rows (wrapped into `ResourceUniqueError`). -/
def get_one_by_or_fail (resource : String) (model : Model) (db : List Row)
    (offset : Int) (limit : Int) (sort_by : Option (List String))
    (operator : Option FilterOperator) (mandatory : Option Filters)
    (filters : Filters) : Except Error Row := do
  let query ← get_query model mandatory (some filters)
    (some (operator.getD .AND)) (some offset) (some limit) sort_by
  match query.run db with
  | [entity] => .ok entity
  | [] => .error (.resourceMissing resource ("Resource not found: " ++ filtersRepr filters))
  | _ => .error (.resourceUnique resource ("Multiple entities found: " ++ filtersRepr filters))

/-- Python dict merge `{**data, key: v}`: replace the value in place when the
key is already present, append otherwise. -/
def dictMerge (data : List (String × Value)) (key : String) (v : Value) :
    List (String × Value) :=
  if data.any (fun kv => kv.1 == key) then
    data.map fun kv => if kv.1 == key then (kv.1, v) else kv
  else data ++ [(key, v)]

/-- SQL `UPDATE ... SET col = v` applied to one row: replace the value of the
column (column names are unique in a persisted row), appending the pair when
the row has no such column yet. -/
def rowSet : Row → String → Value → Row
  | [], f, v => [(f, v)]
  | kv :: rest, f, v => if kv.1 == f then (f, v) :: rest else kv :: rowSet rest f v

/-- Apply every SET pair of the UPDATE statement to a row. -/
def applyUpdates (kwargs : List (String × Value)) (r : Row) : Row :=
  kwargs.foldl (fun acc kv => rowSet acc kv.1 kv.2) r

/-- `update_by_key`: merge `updated_at = utc_now()` over the caller's data
(always overriding any caller-supplied `updated_at`), run
`UPDATE ... WHERE id == key` setting exactly those pairs, then re-fetch the
row through `get_by_key_or_fail`.  Returns the updated table and the
re-fetched row. -/
def update_by_key (resource : String) (model : Model) (db : List Row)
    (now : Value) (key : Value) (data : List (String × Value)) :
    Except Error (List Row × Row) := do
  let kwargs := dictMerge data "updated_at" now
  let db2 := db.map fun r => if rowGet r "id" == key then applyUpdates kwargs r else r
  let entity ← get_by_key_or_fail resource db2 key
  .ok (db2, entity)

/- ## Error boundary (`src/exc/db_exceptions_decorators.py`) -/

/-- `_retrieve_resource`: when the first positional argument is a
`SqlAlchemyCrudFacade` instance, its `resource` property (the repository's
resource name); otherwise the resource the decorator was created with. -/
def retrieve_resource (selfResource : Option String)
    (decoratorResource : String) : String :=
  match selfResource with
  | some r => r
  | none => decoratorResource

/-- `db_catch_exception` around one operation body: an `ArqueaError` is
re-raised unchanged; any other exception is re-raised as
`ResourceError(_retrieve_resource(args), str(error))`. -/
def db_catch_exception (decoratorResource : String)
    (selfResource : Option String) (run : Except Error α) : Except Error α :=
  match run with
  | .ok x => .ok x
  | .error e =>
    if e.isArquea then .error e
    else .error (.resourceError (retrieve_resource selfResource decoratorResource) e.descr)

/- ## CRUD facade (`src/sql/crud_facade_interface_sqlalchemy.py`)

The facade is parametrized by its DTO type; `_dto.model_validate` is the
abstract pydantic validator, returning either the DTO or the
`ValidationError` message. -/

/-- A facade instance: resource name (from its repository), entity metadata,
and the DTO validator. -/
structure Facade (Dto : Type) where
  resource : String
  model : Model
  validate : Row → Except String Dto

/-- The class-level `_default_pagination` of `SqlAlchemyCrudFacade`. -/
def default_pagination : Int × Int := (0, 1000000)

/-- The class-level `_default_sort_by` of `SqlAlchemyCrudFacade`. -/
def default_sort_by : List String :=
  ["+code", "+slug", "-created_at", "-updated_at"]

/-- `_mapping_from_entity_to_dto_or_none`: validation failure logs a warning
and maps the row to `None` instead of propagating the `ValidationError`. -/
def mapping_from_entity_to_dto_or_none {Dto : Type} (F : Facade Dto)
    (entity : Row) : Option Dto :=
  match F.validate entity with
  | .ok dto => some dto
  | .error _ => none

/-- `_mapping_from_dto_update_to_dict`: `data.model_dump(exclude_unset=True)`
— the update-DTO is modelled as the mapping of exactly the fields the caller
explicitly set, which is what `exclude_unset=True` dumps. -/
def mapping_from_dto_update_to_dict (data : List (String × Value)) :
    List (String × Value) := data

/-- `get_list`: default pagination when none supplied, default sort when the
caller's sort is absent or empty, fetch-and-count through the repository, then
tolerant mapping — rows whose DTO validation fails are dropped from the data
while the reported total is untouched.  The whole body runs under
`db_catch_exception`. -/
def facade_get_list {Dto : Type} (F : Facade Dto) (db : List Row)
    (pagination : Option (Int × Int)) (sort_by : Option (List String))
    (operator : Option FilterOperator) (mandatory : Option Filters)
    (filters : Filters) : Except Error (List Dto × Nat) :=
  db_catch_exception "SqlAlchemyCrudFacade" (some F.resource) (do
    let pag := pagination.getD default_pagination
    let sb :=
      match sort_by with
      | none => default_sort_by
      | some s => if s = [] then default_sort_by else s
    let (entities, total) ← get_and_count F.model db pag.1 pag.2 (some sb)
      operator mandatory filters
    .ok (entities.filterMap (fun e => mapping_from_entity_to_dto_or_none F e), total))

/-- `update`: map the update-DTO to its explicitly-set fields, update by key
(stamping `updated_at`), and map the re-fetched entity back to a DTO (a
pydantic `ValidationError` derives `ValueError`).  The body runs under
`db_catch_exception`. -/
def facade_update {Dto : Type} (F : Facade Dto) (db : List Row) (now : Value)
    (key : Value) (data : List (String × Value)) :
    Except Error (List Row × Dto) :=
  db_catch_exception "SqlAlchemyCrudFacade" (some F.resource) (do
    let entity_data := mapping_from_dto_update_to_dict data
    let (db2, entity_updated) ← update_by_key F.resource F.model db now key entity_data
    match F.validate entity_updated with
    | .ok dto => .ok (db2, dto)
    | .error m => .error (.valueError m))

/- ## Auxiliary definitions for the verification -/

/-- The field name `get_sort_criteria` actually resolves: the token with every
`-` and `+` character removed. -/
def stripPlusMinus (t : String) : String :=
  pyRemoveChar '+' (pyRemoveChar '-' t)

/-- The direction `get_sort_criteria` assigns to a token. -/
def tokenDirection (t : String) : Direction :=
  if pyStartsWith '-' t then Direction.DESC else Direction.ASC

/-- Sort compilation as the specification words it, for comparison with
`get_sort_criteria`: strip only a LEADING `+` or `-` from each token, resolve
the remaining name against the entity's fields, drop unknown names, direction
descending only for a leading `-`. -/
def get_sort_criteria_specWorded (model : Model) (ordering_values : List String) :
    List SortClause :=
  match ordering_values with
  | [] => []
  | t :: rest =>
    let direction := if pyStartsWith '-' t then Direction.DESC else Direction.ASC
    let field_name : String :=
      if pyStartsWith '-' t || pyStartsWith '+' t then ⟨t.data.tail⟩ else t
    if field_name ∈ model.fields then
      ⟨field_name, direction⟩ :: get_sort_criteria_specWorded model rest
    else
      get_sort_criteria_specWorded model rest

/-- The clause an empty criteria group compiles to under the given operator
(`or_()` / `and_()` over no criteria). -/
def emptyGroupClause (op : FilterOperator) : Clause :=
  if op = FilterOperator.OR then Clause.or_ [] else Clause.and_ []

/- Concrete fixtures used by witnesses and counterexamples. -/

/-- A small entity class: four columns, no relationships. -/
def wModel : Model := ⟨["id", "a", "b", "updated_at"], []⟩

/-- Row with id 1 satisfying `a = 1`. -/
def wr1 : Row := [("id", .vint 1), ("a", .vint 1), ("b", .vint 2)]

/-- Row with id 2 satisfying `a = 1`. -/
def wr2 : Row := [("id", .vint 2), ("a", .vint 1), ("b", .vint 3)]

/-- Row with id 3 satisfying `a = 9`. -/
def wr3 : Row := [("id", .vint 3), ("a", .vint 9), ("b", .vint 9)]

/-- A facade over `wModel` whose DTO validation fails exactly on rows with
`a = 9` (the DTO is the natural number in column `a`). -/
def wFacade : Facade Nat :=
  ⟨"user", wModel, fun r =>
    match rowGet r "a" with
    | .vint n => if n = 9 then .error "validation failed" else .ok n.toNat
    | _ => .error "validation failed"⟩

/- ## Helper lemmas -/

/-- An empty criteria group constrains nothing. -/
theorem emptyGroupClause_eval (op : FilterOperator) (r : Row) :
    (emptyGroupClause op).eval r = true := by
  cases op <;> rfl

/-- Compiling an empty filter map yields the empty group clause and no loads. -/
theorem get_filter_criteria_nil (model : Model) (op : FilterOperator) :
    get_filter_criteria model [] op = .ok (emptyGroupClause op, []) := rfl

/-- The filter query built from a user filter group and no mandatory group. -/
theorem get_filter_query_none (model : Model) (filters : Filters)
    (operator : Option FilterOperator) (fc : Clause) (loads : List Load)
    (hf : get_filter_criteria model filters (operator.getD FilterOperator.OR) = .ok (fc, loads)) :
    get_filter_query model none (some filters) operator
      = .ok ⟨[fc, emptyGroupClause (operator.getD FilterOperator.OR)],
             loads.eraseDups, none, none, []⟩ := by
  simp only [get_filter_query, Option.getD_none, Option.getD_some,
    get_filter_criteria_nil, hf, bind, Except.bind, List.nil_append]

/-- Filtering by the two attached clauses when the second never constrains. -/
theorem filter_matchesRow_pair (fc mcl : Clause) (opts : List Load)
    (off lim : Option Int) (srt : List SortClause)
    (hm : ∀ r, mcl.eval r = true) (db : List Row) :
    db.filter (Query.matchesRow ⟨[fc, mcl], opts, off, lim, srt⟩)
      = db.filter fun r => fc.eval r := by
  apply List.filter_congr
  intro a _
  simp [Query.matchesRow, hm]

/-- Running the bare filter query returns exactly the matching rows. -/
theorem run_filter_only (fc mcl : Clause) (opts : List Load)
    (hm : ∀ r, mcl.eval r = true) (db : List Row) :
    Query.run ⟨[fc, mcl], opts, none, none, []⟩ db
      = db.filter fun r => fc.eval r := by
  simp [Query.run, filter_matchesRow_pair fc mcl opts none none [] hm db]

/-- Running the filter query with only a LIMIT clause takes a prefix of the
matching rows. -/
theorem run_filter_take (fc mcl : Clause) (opts : List Load) (n : Int)
    (hm : ∀ r, mcl.eval r = true) (db : List Row) :
    Query.run ⟨[fc, mcl], opts, none, some n, []⟩ db
      = (db.filter fun r => fc.eval r).take n.toNat := by
  simp [Query.run, filter_matchesRow_pair fc mcl opts none (some n) [] hm db]

/-- Pagination with the default offset 0 and limit 15 attaches only LIMIT. -/
theorem apply_paginated_default15 (model : Model) (c : List Clause) (opts : List Load) :
    apply_paginated_query model ⟨c, opts, none, none, []⟩ (some 0) (some 15) none
      = ⟨c, opts, none, some 15, []⟩ := rfl

/-- Pagination with offset 0 and the limit-0 sentinel attaches no clause. -/
theorem apply_paginated_zeros (model : Model) (c : List Clause) (opts : List Load) :
    apply_paginated_query model ⟨c, opts, none, none, []⟩ (some 0) (some 0) none
      = ⟨c, opts, none, none, []⟩ := rfl

/-- Taking a nonzero prefix preserves the head. -/
theorem head?_take_pos {α : Type} (l : List α) (n : Nat) (h : n ≠ 0) :
    (l.take n).head? = l.head? := by
  cases l with
  | nil => simp
  | cons a t =>
    cases n with
    | zero => exact absurd rfl h
    | succ m => simp

/-- Dropped-element accounting: the mapped survivors plus the dropped rows
make up the whole list. -/
theorem length_filterMap_add_countP {α β : Type} (f : α → Option β) (l : List α) :
    (l.filterMap f).length + l.countP (fun a => (f a).isNone) = l.length := by
  induction l with
  | nil => rfl
  | cons a l ih =>
    cases h : f a with
    | none => simp [List.filterMap_cons, h, List.countP_cons]; omega
    | some b => simp [List.filterMap_cons, h, List.countP_cons]; omega

/-- Inserting a row grows the length by one. -/
theorem insertRow_length (le : Row → Row → Bool) (a : Row) (l : List Row) :
    (insertRow le a l).length = l.length + 1 := by
  induction l with
  | nil => rfl
  | cons b l ih =>
    simp only [insertRow]
    split
    · simp
    · simp [ih]

/-- Sorting preserves the length. -/
theorem sortRowsBy_length (le : Row → Row → Bool) (l : List Row) :
    (sortRowsBy le l).length = l.length := by
  induction l with
  | nil => rfl
  | cons a l ih => simp [sortRowsBy, insertRow_length, ih]

/-- Inserting a row preserves counting. -/
theorem insertRow_countP (p : Row → Bool) (le : Row → Row → Bool) (a : Row)
    (l : List Row) : (insertRow le a l).countP p = (a :: l).countP p := by
  induction l with
  | nil => rfl
  | cons b l ih =>
    simp only [insertRow]
    split
    · rfl
    · simp [List.countP_cons, ih]; omega

/-- Sorting preserves counting. -/
theorem sortRowsBy_countP (p : Row → Bool) (le : Row → Row → Bool) (l : List Row) :
    (sortRowsBy le l).countP p = l.countP p := by
  induction l with
  | nil => rfl
  | cons a l ih => simp [sortRowsBy, insertRow_countP, List.countP_cons, ih]

/-- `find?` over a map by a function that does not change the predicate. -/
theorem find?_map_pred {α : Type} (p : α → Bool) (g : α → α) (l : List α)
    (h : ∀ x, p (g x) = p x) :
    (l.map g).find? p = (l.find? p).map g := by
  induction l with
  | nil => rfl
  | cons a l ih =>
    cases hpa : p a with
    | true =>
      rw [List.map_cons, List.find?_cons_of_pos _ (by rw [h]; exact hpa),
        List.find?_cons_of_pos _ hpa]
      rfl
    | false =>
      rw [List.map_cons, List.find?_cons_of_neg _ (by simp [h, hpa]),
        List.find?_cons_of_neg _ (by simp [hpa]), ih]

/-- Setting a column then reading it back gives the new value. -/
theorem rowGet_rowSet_self (r : Row) (f : String) (v : Value) :
    rowGet (rowSet r f v) f = v := by
  induction r with
  | nil => simp [rowSet, rowGet, List.find?]
  | cons kv rest ih =>
    cases hk : kv.1 == f with
    | true => simp [rowSet, hk, rowGet, List.find?]
    | false =>
      simp only [rowSet, hk, Bool.false_eq_true, if_false]
      simpa [rowGet, List.find?, hk] using ih

/-- Setting a column leaves every other column unchanged. -/
theorem rowGet_rowSet_ne (r : Row) (f g : String) (v : Value) (h : g ≠ f) :
    rowGet (rowSet r f v) g = rowGet r g := by
  have hfg : (f == g) = false := beq_eq_false_iff_ne.mpr (Ne.symm h)
  induction r with
  | nil => simp [rowSet, rowGet, List.find?, hfg]
  | cons kv rest ih =>
    cases hk : kv.1 == f with
    | true =>
      have hkf : kv.1 = f := eq_of_beq hk
      have hkg : (kv.1 == g) = false := by rw [hkf]; exact hfg
      simp [rowSet, hk, rowGet, List.find?, hfg, hkg]
    | false =>
      simp only [rowSet, hk, Bool.false_eq_true, if_false]
      cases hg : kv.1 == g with
      | true => simp [rowGet, List.find?, hg]
      | false => simpa [rowGet, List.find?, hg] using ih

/-- Columns not named by any SET pair keep their prior values. -/
theorem rowGet_applyUpdates_not_mem (kwargs : List (String × Value)) (r : Row)
    (f : String) (h : f ∉ kwargs.map Prod.fst) :
    rowGet (applyUpdates kwargs r) f = rowGet r f := by
  induction kwargs generalizing r with
  | nil => rfl
  | cons kv rest ih =>
    simp only [List.map_cons, List.mem_cons, not_or] at h
    have hstep : applyUpdates (kv :: rest) r = applyUpdates rest (rowSet r kv.1 kv.2) := rfl
    rw [hstep, ih _ h.2, rowGet_rowSet_ne _ _ _ _ h.1]

/-- When every SET pair naming a column carries the same value and some pair
names it, the updated row holds that value there. -/
theorem rowGet_applyUpdates_const (kwargs : List (String × Value)) (r : Row)
    (f : String) (v : Value)
    (hall : ∀ kv ∈ kwargs, kv.1 = f → kv.2 = v)
    (hmem : f ∈ kwargs.map Prod.fst) :
    rowGet (applyUpdates kwargs r) f = v := by
  induction kwargs generalizing r with
  | nil => simp at hmem
  | cons kv rest ih =>
    have hstep : applyUpdates (kv :: rest) r = applyUpdates rest (rowSet r kv.1 kv.2) := rfl
    by_cases hf : f ∈ rest.map Prod.fst
    · rw [hstep]
      exact ih _ (fun kv' h' hk => hall kv' (List.mem_cons_of_mem _ h') hk) hf
    · have hfk : f = kv.1 := by
        simp only [List.map_cons, List.mem_cons] at hmem
        exact hmem.resolve_right hf
      have hv : kv.2 = v := hall kv (List.mem_cons_self _ _) hfk.symm
      rw [hstep, rowGet_applyUpdates_not_mem _ _ _ hf, ← hfk, rowGet_rowSet_self]
      exact hv

/-- The keys of the merged dict: unchanged when the key was present, the key
appended otherwise. -/
theorem dictMerge_keys (data : List (String × Value)) (key : String) (v : Value) :
    (dictMerge data key v).map Prod.fst
      = if data.any (fun kv => kv.1 == key) then data.map Prod.fst
        else data.map Prod.fst ++ [key] := by
  by_cases h : data.any (fun kv => kv.1 == key)
  · simp only [dictMerge, h, if_true, List.map_map]
    apply List.map_congr_left
    intro kv _
    simp only [Function.comp_apply]
    split <;> rfl
  · simp [dictMerge, h]

/-- The merge key is always among the merged dict's keys. -/
theorem dictMerge_key_mem (data : List (String × Value)) (key : String) (v : Value) :
    key ∈ (dictMerge data key v).map Prod.fst := by
  rw [dictMerge_keys]
  split
  · next h =>
    obtain ⟨kv, hkv, hbeq⟩ := List.any_eq_true.mp h
    exact List.mem_map.mpr ⟨kv, hkv, eq_of_beq hbeq⟩
  · simp

/-- Keys other than the merge key come from the original dict. -/
theorem dictMerge_keys_subset (data : List (String × Value)) (key : String)
    (v : Value) (f : String) (h1 : f ∉ data.map Prod.fst) (h2 : f ≠ key) :
    f ∉ (dictMerge data key v).map Prod.fst := by
  rw [dictMerge_keys]
  split
  · exact h1
  · simp [h1, h2]

/-- Every pair of the merged dict naming the merge key carries the merged
value. -/
theorem dictMerge_const (data : List (String × Value)) (key : String) (v : Value) :
    ∀ kv ∈ dictMerge data key v, kv.1 = key → kv.2 = v := by
  intro kv hkv hk
  by_cases h : data.any (fun kv => kv.1 == key)
  · simp only [dictMerge, h, if_true] at hkv
    obtain ⟨kv', hkv', heq⟩ := List.mem_map.mp hkv
    by_cases hb : kv'.1 == key
    · simp only [hb, if_true] at heq
      rw [← heq]
    · simp only [hb, Bool.false_eq_true, if_false] at heq
      rw [← heq] at hk
      exact absurd hk (by simpa using hb)
  · simp only [dictMerge, h, Bool.false_eq_true, if_false] at hkv
    rcases List.mem_append.mp hkv with hmem | hmem
    · exact absurd (List.any_eq_true.mpr ⟨kv, hmem, by simp [hk]⟩) h
    · simp only [List.mem_singleton] at hmem
      rw [hmem]

/-- An operator outside the registered set misses the transformer dict. -/
theorem orm_operator_transformer_none (op : String) (h : op ∉ ormOperatorKeys) :
    orm_operator_transformer op = none := by
  simp only [ormOperatorKeys, List.mem_cons, List.not_mem_nil, or_false, not_or] at h
  obtain ⟨h1, h2, h3, h4, h5, h6, h7, h8, h9, h10, h11, h12⟩ := h
  simp [orm_operator_transformer, h1, h2, h3, h4, h5, h6, h7, h8, h9, h10, h11, h12]

/-- Pagination with offset 0 and limit 0 attaches at most an ORDER BY clause,
holding whatever sort tokens resolved. -/
theorem apply_paginated_zeros_sort (model : Model) (c : List Clause)
    (opts : List Load) (sb : List String) :
    apply_paginated_query model ⟨c, opts, none, none, []⟩ (some 0) (some 0) (some sb)
      = ⟨c, opts, none, none, get_sort_criteria model sb⟩ := by
  by_cases h : get_sort_criteria model sb = []
  · simp [apply_paginated_query, optIntTruthy, h]
  · simp [apply_paginated_query, optIntTruthy, h]

/-- Running the filter query with only an ORDER BY clause returns the matching
rows, sorted when the clause list is nonempty. -/
theorem run_filter_sort (fc mcl : Clause) (opts : List Load) (S : List SortClause)
    (hm : ∀ r, mcl.eval r = true) (db : List Row) :
    Query.run ⟨[fc, mcl], opts, none, none, S⟩ db
      = (match S with
         | [] => db.filter fun r => fc.eval r
         | _ => sortRowsBy (rowLe S) (db.filter fun r => fc.eval r)) := by
  cases S <;>
    simp [Query.run, filter_matchesRow_pair fc mcl opts none none _ hm db]

/- ## Claim theorems -/

/-- C3: the claim says `getByKeyOrFail` fails with the typed `ResourceMissing`
condition when no row matches the key.  The code instead executes
`raise (self.resource, f"Resource with id '{key}' not found")`, raising the
tuple itself rather than a `ResourceMissingError` built from it, and Python 3
rejects raising a non-exception with `TypeError: exceptions must derive from
BaseException` — no arquea-typed error reaches the caller.  The present-key
half of the claim does hold. -/
theorem getByKeyOrFail_missing_is_TypeError :
    get_by_key_or_fail "user" [] (Value.vint 1)
        = .error (.typeError "exceptions must derive from BaseException")
    ∧ (Error.typeError "exceptions must derive from BaseException").isArquea = false
    ∧ get_by_key_or_fail "user" [wr1] (Value.vint 1) = .ok wr1 := by
  exact ⟨rfl, rfl, by decide⟩

/-- C5: the facade error boundary re-raises typed `ArqueaError`s unchanged
(preserving their specific kind), wraps every other raised failure into the
generic `ResourceError` carrying the resolved resource name and the original
failure's description, and consequently only arquea-typed errors ever escape
a wrapped facade operation. -/
theorem boundary_error_translation (decRes : String) (selfRes : Option String)
    (α : Type) (e : Error) (run : Except Error α) :
    (e.isArquea = true →
      db_catch_exception decRes selfRes (Except.error e : Except Error α) = .error e)
    ∧ (e.isArquea = false →
      db_catch_exception decRes selfRes (Except.error e : Except Error α)
        = .error (.resourceError (retrieve_resource selfRes decRes) e.descr))
    ∧ (∀ e2, db_catch_exception decRes selfRes run = .error e2 → e2.isArquea = true) := by
  refine ⟨fun h => by simp [db_catch_exception, h], fun h => by simp [db_catch_exception, h],
    fun e2 h2 => ?_⟩
  cases run with
  | ok x => simp [db_catch_exception] at h2
  | error e' =>
    cases ha : e'.isArquea with
    | true =>
      simp [db_catch_exception, ha] at h2
      rw [← h2]
      exact ha
    | false =>
      simp [db_catch_exception, ha] at h2
      rw [← h2]
      rfl

/-- Witness for C5: a concrete storage failure is wrapped with the facade's
resource name, and a concrete typed error passes through unchanged. -/
theorem boundary_error_translation_witness :
    db_catch_exception "SqlAlchemyCrudFacade" (some "user")
        (Except.error (Error.keyError "boom") : Except Error Nat)
      = .error (.resourceError "user" "boom")
    ∧ db_catch_exception "SqlAlchemyCrudFacade" (some "user")
        (Except.error (Error.resourceMissing "user" "absent") : Except Error Nat)
      = .error (.resourceMissing "user" "absent") :=
  ⟨(boundary_error_translation "SqlAlchemyCrudFacade" (some "user") Nat
      (.keyError "boom") (.ok 0)).2.1 rfl,
   (boundary_error_translation "SqlAlchemyCrudFacade" (some "user") Nat
      (.resourceMissing "user" "absent") (.ok 0)).1 rfl⟩

/-- C6 counterexample: for the key `a__gt__lt` the part after the first `__`
is `gt__lt`, which is not a registered operator, yet compilation does not fail
with the operator-lookup `KeyError` (the InvalidFilterOperator condition): the
no-maxsplit `str.split` unpacking fails first with a `ValueError`. -/
theorem getOperator_split_counterexample :
    get_operator "a__gt__lt" (Value.vint 0)
        = .error (.valueError "too many values to unpack (expected 2)")
    ∧ get_operator "a__gt__lt" (Value.vint 0) ≠ .error (.keyError "gt__lt") := by
  exact ⟨by decide, by decide⟩

/-- C6 amended: a key without `__` compiles to equality on the unchanged key
and value; a key splitting on `__` into exactly two parts whose operator part
is outside the registered set fails with the `KeyError` on that operator (the
InvalidFilterOperator condition); a key splitting into three or more parts
fails with the tuple-unpacking `ValueError` instead, because the code splits
on every `__`, not only the first. -/
theorem getOperator_cases (k : String) (v : Value) :
    (pyHasDunder k = false → get_operator k v = .ok ("__eq__", k, v))
    ∧ (∀ name op, pyHasDunder k = true → pySplitDunder k = [name, op] →
        op ∉ ormOperatorKeys → get_operator k v = .error (.keyError op))
    ∧ (pyHasDunder k = true → 3 ≤ (pySplitDunder k).length →
        get_operator k v = .error (.valueError "too many values to unpack (expected 2)")) := by
  refine ⟨fun h => by simp [get_operator, h], fun name op h1 h2 h3 => ?_, fun h1 hlen => ?_⟩
  · simp [get_operator, h1, h2, orm_operator_transformer_none op h3]
  · rcases hsp : pySplitDunder k with _ | ⟨a, tl⟩
    · rw [hsp] at hlen; simp at hlen
    · rcases tl with _ | ⟨b, tl2⟩
      · rw [hsp] at hlen; simp at hlen
      · rcases tl2 with _ | ⟨c, t⟩
        · rw [hsp] at hlen; simp at hlen
        · simp [get_operator, h1, hsp]

/-- Witness for C6: an unregistered operator on a two-part key fails with the
`KeyError`, and a bare key compiles to equality. -/
theorem getOperator_cases_witness :
    get_operator "a__zz" (Value.vint 0) = .error (.keyError "zz")
    ∧ get_operator "name" (Value.vint 5) = .ok ("__eq__", "name", Value.vint 5) :=
  ⟨(getOperator_cases "a__zz" (Value.vint 0)).2.1 "a" "zz" (by decide) (by decide) (by decide),
   (getOperator_cases "name" (Value.vint 5)).1 (by decide)⟩

/-- C7 counterexample: with two single-column equality filters and no
combinator supplied, `count_by` counts the row matching only one of the two
predicates, so the default combination over the user filter group is OR; an
explicit AND combinator excludes the row. -/
theorem defaultCombinator_counterexample :
    count_by wModel [wr1] none none [("a", Value.vint 1), ("b", Value.vint 99)] = .ok 1
    ∧ count_by wModel [wr1] (some FilterOperator.AND) none
        [("a", Value.vint 1), ("b", Value.vint 99)] = .ok 0 := by
  exact ⟨by decide, by decide⟩

/-- C7 amended: when the caller supplies no combinator, `get_all`,
`get_and_count` and `count_by` OR-combine the user filter group, while
`get_one_by` and `get_one_by_or_fail` AND-combine it. -/
theorem defaultCombinator_per_path (resource : String) (model : Model)
    (db : List Row) (offset limit : Int) (sort_by : Option (List String))
    (mandatory : Option Filters) (filters : Filters) :
    get_all model db offset limit sort_by none mandatory filters
      = get_all model db offset limit sort_by (some FilterOperator.OR) mandatory filters
    ∧ get_and_count model db offset limit sort_by none mandatory filters
      = get_and_count model db offset limit sort_by (some FilterOperator.OR) mandatory filters
    ∧ count_by model db none mandatory filters
      = count_by model db (some FilterOperator.OR) mandatory filters
    ∧ get_one_by model db offset limit sort_by none mandatory filters
      = get_one_by model db offset limit sort_by (some FilterOperator.AND) mandatory filters
    ∧ get_one_by_or_fail resource model db offset limit sort_by none mandatory filters
      = get_one_by_or_fail resource model db offset limit sort_by (some FilterOperator.AND)
          mandatory filters :=
  ⟨rfl, rfl, rfl, rfl, rfl⟩

/-- C9 counterexample: on the token `+a-b` over an entity with field `ab`, the
code removes every `+`/`-` character and sorts by `ab` ascending, while the
claimed strip-only-a-leading-sign semantics finds no field named `a-b` and
drops the token. -/
theorem sortCriteria_counterexample :
    get_sort_criteria ⟨["ab"], []⟩ ["+a-b"] = [⟨"ab", Direction.ASC⟩]
    ∧ get_sort_criteria_specWorded ⟨["ab"], []⟩ ["+a-b"] = [] := by
  exact ⟨by decide, by decide⟩

/-- C9 amended: every produced sort clause resolves its token with every `+`
and `-` character removed (not only a leading one) to a known field, with
direction descending exactly when the token starts with `-` and ascending by
default; tokens whose stripped name is unknown are silently dropped (never an
error), and every token whose stripped name is a known field contributes its
clause; in particular `["-bogus", "+validField"]` sorts only by `validField`
ascending. -/
theorem sortCriteria_cases (model : Model) (tokens : List String) :
    (∀ c ∈ get_sort_criteria model tokens, c.field ∈ model.fields ∧
      ∃ t ∈ tokens, c.field = stripPlusMinus t ∧ c.dir = tokenDirection t)
    ∧ (∀ t ∈ tokens, stripPlusMinus t ∈ model.fields →
        (⟨stripPlusMinus t, tokenDirection t⟩ : SortClause) ∈ get_sort_criteria model tokens)
    ∧ get_sort_criteria ⟨["validField"], []⟩ ["-bogus", "+validField"]
        = [⟨"validField", Direction.ASC⟩] := by
  refine ⟨?_, ?_, by decide⟩
  · induction tokens with
    | nil => simp [get_sort_criteria]
    | cons t rest ih =>
      intro c hc
      simp only [get_sort_criteria] at hc
      by_cases hf : pyRemoveChar '+' (pyRemoveChar '-' t) ∈ model.fields
      · rw [if_pos hf] at hc
        rcases List.mem_cons.mp hc with hc | hc
        · subst hc
          exact ⟨hf, t, List.mem_cons_self _ _, rfl, rfl⟩
        · obtain ⟨hcf, t', ht', h1, h2⟩ := ih c hc
          exact ⟨hcf, t', List.mem_cons_of_mem _ ht', h1, h2⟩
      · rw [if_neg hf] at hc
        obtain ⟨hcf, t', ht', h1, h2⟩ := ih c hc
        exact ⟨hcf, t', List.mem_cons_of_mem _ ht', h1, h2⟩
  · induction tokens with
    | nil => intro t ht; simp at ht
    | cons t rest ih =>
      intro t' ht' hmem
      rcases List.mem_cons.mp ht' with ht' | ht'
      · subst ht'
        simp only [get_sort_criteria, stripPlusMinus, tokenDirection] at hmem ⊢
        rw [if_pos hmem]
        exact List.mem_cons_self _ _
      · have := ih t' ht' hmem
        simp only [get_sort_criteria]
        by_cases hf : pyRemoveChar '+' (pyRemoveChar '-' t) ∈ model.fields
        · rw [if_pos hf]
          exact List.mem_cons_of_mem _ this
        · rw [if_neg hf]
          exact this

/-- Witness for C9: the amended characterization applied to the token `+a-b`
over an entity with field `ab`. -/
theorem sortCriteria_cases_witness :
    (⟨"ab", Direction.ASC⟩ : SortClause) ∈ get_sort_criteria ⟨["ab"], []⟩ ["+a-b"] :=
  (sortCriteria_cases ⟨["ab"], []⟩ ["+a-b"]).2.1 "+a-b" (by decide) (by decide)

/-- C1: at the default pagination (offset 0, limit 15) and with no mandatory
group, `get_one_by_or_fail` returns the unique matching row when exactly one
row matches the compiled criteria, fails with `ResourceMissingError` when no
row matches, and fails with `ResourceUniqueError` when two or more match. -/
theorem getOneByOrFail_trichotomy (resource : String) (model : Model)
    (db : List Row) (filters : Filters) (o : Option FilterOperator)
    (fc : Clause) (loads : List Load)
    (hf : get_filter_criteria model filters (o.getD FilterOperator.AND) = .ok (fc, loads)) :
    ((db.filter fun r => fc.eval r) = [] →
      get_one_by_or_fail resource model db 0 15 none o none filters
        = .error (.resourceMissing resource ("Resource not found: " ++ filtersRepr filters)))
    ∧ (∀ r, (db.filter fun r => fc.eval r) = [r] →
      get_one_by_or_fail resource model db 0 15 none o none filters = .ok r)
    ∧ (2 ≤ (db.filter fun r => fc.eval r).length →
      get_one_by_or_fail resource model db 0 15 none o none filters
        = .error (.resourceUnique resource ("Multiple entities found: " ++ filtersRepr filters))) := by
  have hq := get_filter_query_none model filters (some (o.getD .AND)) fc loads hf
  have hE : get_one_by_or_fail resource model db 0 15 none o none filters
      = (match (db.filter fun r => fc.eval r).take (15 : Int).toNat with
         | [entity] => Except.ok entity
         | [] => Except.error (.resourceMissing resource
             ("Resource not found: " ++ filtersRepr filters))
         | _ => Except.error (.resourceUnique resource
             ("Multiple entities found: " ++ filtersRepr filters))) := by
    simp only [get_one_by_or_fail, get_query, hq, bind, Except.bind,
      apply_paginated_default15,
      run_filter_take fc _ _ 15 (emptyGroupClause_eval _) db]
  refine ⟨fun h0 => ?_, fun r hr => ?_, fun h2 => ?_⟩
  · rw [hE, h0]
    rfl
  · rw [hE, hr]
    rfl
  · rw [hE]
    have h15 : (15 : Int).toNat = 15 := rfl
    have hl : 2 ≤ ((db.filter fun r => fc.eval r).take (15 : Int).toNat).length := by
      rw [List.length_take, h15]
      omega
    rcases htk : (db.filter fun r => fc.eval r).take (15 : Int).toNat
      with _ | ⟨x, _ | ⟨y, t⟩⟩
    · rw [htk] at hl; simp at hl
    · rw [htk] at hl; simp at hl
    · rfl

/-- Witness for C1: exactly one of two rows matches `a = 1` and is returned. -/
theorem getOneByOrFail_trichotomy_witness :
    get_one_by_or_fail "res" wModel [wr1, wr3] 0 15 none none none [("a", Value.vint 1)]
      = .ok wr1 :=
  (getOneByOrFail_trichotomy "res" wModel [wr1, wr3] [("a", Value.vint 1)] none
    (.and_ [.bin "__eq__" "a" (.vint 1)]) [] (by decide)).2.1 wr1 (by decide)

/-- C2: `get_and_count` reports a total computed over the unpaginated filtered
query no matter the offset, limit and sort supplied; with offset 0 and the
limit-0 sentinel it returns every matching row together with that total; and
pagination attaches the OFFSET clause exactly when the offset is strictly
positive and the LIMIT clause exactly when the limit is at least 1 — the
literal 0 attaches no limit clause rather than limiting to zero rows. -/
theorem getAndCount_spec (model : Model) (db : List Row) (filters : Filters)
    (o : Option FilterOperator) (offset limit : Int)
    (sort_by : Option (List String)) (fc : Clause) (loads : List Load)
    (hf : get_filter_criteria model filters (o.getD FilterOperator.OR) = .ok (fc, loads)) :
    (∃ ents, get_and_count model db offset limit sort_by o none filters
        = .ok (ents, (db.filter fun r => fc.eval r).length))
    ∧ get_and_count model db 0 0 none o none filters
        = .ok (db.filter fun r => fc.eval r, (db.filter fun r => fc.eval r).length)
    ∧ (∀ q : Query,
        (apply_paginated_query model q (some offset) (some limit) sort_by).offsetClause
          = if 0 < offset then some offset else q.offsetClause)
    ∧ (∀ q : Query,
        (apply_paginated_query model q (some offset) (some limit) sort_by).limitClause
          = if 1 ≤ limit then some limit else q.limitClause) := by
  have hq := get_filter_query_none model filters o fc loads hf
  refine ⟨?_, ?_, ?_, ?_⟩
  · refine ⟨(apply_paginated_query model
      ⟨[fc, emptyGroupClause (o.getD .OR)], loads.eraseDups, none, none, []⟩
      (some offset) (some limit) sort_by).run db, ?_⟩
    simp only [get_and_count, hq, bind, Except.bind,
      run_filter_only fc _ _ (emptyGroupClause_eval _) db]
  · simp only [get_and_count, hq, bind, Except.bind, apply_paginated_zeros,
      run_filter_only fc _ _ (emptyGroupClause_eval _) db]
  · intro q
    simp only [apply_paginated_query, apply_ite Query.offsetClause, ite_self]
    rcases lt_trichotomy offset 0 with h | h | h
    · have hO : (if (offset ≠ 0 ∧ offset < 0) then (none : Option Int) else some offset)
          = none := if_pos ⟨h.ne, h⟩
      rw [hO]
      simp only [optIntTruthy, Bool.false_eq_true, if_false]
      rw [if_neg (by omega : ¬ (0 : Int) < offset)]
    · subst h
      norm_num [optIntTruthy]
    · have hO : (if (offset ≠ 0 ∧ offset < 0) then (none : Option Int) else some offset)
          = some offset := if_neg (by omega)
      rw [hO]
      have ht : optIntTruthy (some offset) = true := by
        simp [optIntTruthy, bne_iff_ne]
        omega
      rw [ht]
      simp only [if_true]
      rw [if_pos h]
  · intro q
    simp only [apply_paginated_query, apply_ite Query.limitClause, ite_self]
    by_cases h1 : (1 : Int) ≤ limit
    · have hL : (if (limit ≠ 0 ∧ limit < 1) then (none : Option Int) else some limit)
          = some limit := if_neg (by omega)
      rw [hL]
      have ht : optIntTruthy (some limit) = true := by
        simp [optIntTruthy, bne_iff_ne]
        omega
      rw [ht]
      simp only [if_true]
      rw [if_pos h1]
    · by_cases h0 : limit = 0
      · subst h0
        norm_num [optIntTruthy]
      · have hL : (if (limit ≠ 0 ∧ limit < 1) then (none : Option Int) else some limit)
            = none := if_pos ⟨h0, by omega⟩
        rw [hL]
        simp only [optIntTruthy, Bool.false_eq_true, if_false]
        rw [if_neg h1]

/-- Witness for C2: limit 0 returns both matching rows out of three, total 2. -/
theorem getAndCount_spec_witness :
    get_and_count wModel [wr1, wr2, wr3] 0 0 none none none [("a", Value.vint 1)]
      = .ok ([wr1, wr2], 2) :=
  (getAndCount_spec wModel [wr1, wr2, wr3] [("a", Value.vint 1)] none 4 7 none
    (.or_ [.bin "__eq__" "a" (.vint 1)]) [] (by decide)).2.1

/-- C10: at the default pagination and the AND default combinator,
`get_one_by` returns the first row of the executed query; for two or more
matching rows it returns that first row rather than absent, and it returns
absent exactly when no row matches — the ambiguous case is never
distinguished. -/
theorem getOneBy_head_or_none (model : Model) (db : List Row) (filters : Filters)
    (o : Option FilterOperator) (fc : Clause) (loads : List Load)
    (hf : get_filter_criteria model filters (o.getD FilterOperator.AND) = .ok (fc, loads)) :
    get_one_by model db 0 15 none o none filters
        = .ok (db.filter fun r => fc.eval r).head?
    ∧ ((db.filter fun r => fc.eval r) = [] ↔
        get_one_by model db 0 15 none o none filters = .ok none)
    ∧ (2 ≤ (db.filter fun r => fc.eval r).length →
        ∃ r rest, (db.filter fun r => fc.eval r) = r :: rest
          ∧ get_one_by model db 0 15 none o none filters = .ok (some r)) := by
  have hq := get_filter_query_none model filters (some (o.getD .AND)) fc loads hf
  have hE : get_one_by model db 0 15 none o none filters
      = .ok (db.filter fun r => fc.eval r).head? := by
    simp only [get_one_by, get_query, hq, bind, Except.bind, apply_paginated_default15,
      run_filter_take fc _ _ 15 (emptyGroupClause_eval _) db,
      head?_take_pos _ _ (by decide : (15 : Int).toNat ≠ 0)]
  refine ⟨hE, ⟨fun h => by rw [hE, h]; rfl, fun h => ?_⟩, fun h2 => ?_⟩
  · rw [hE] at h
    cases hcase : (db.filter fun r => fc.eval r) with
    | nil => rfl
    | cons a t => rw [hcase] at h; simp at h
  · rcases hcase : (db.filter fun r => fc.eval r) with _ | ⟨x, rest⟩
    · rw [hcase] at h2; simp at h2
    · exact ⟨x, rest, rfl, by rw [hE, hcase]; rfl⟩

/-- Witness for C10: two rows match `a = 1`; the first is returned, not
absent. -/
theorem getOneBy_head_or_none_witness :
    get_one_by wModel [wr1, wr2, wr3] 0 15 none none none [("a", Value.vint 1)]
      = .ok (some wr1) :=
  (getOneBy_head_or_none wModel [wr1, wr2, wr3] [("a", Value.vint 1)] none
    (.and_ [.bin "__eq__" "a" (.vint 1)]) [] (by decide)).1

/-- C4: with the all-rows pagination sentinel `(0, 0)`, when the compiled
criteria match N rows of which exactly one fails DTO validation during
mapping, `get_list` returns N-1 well-formed DTOs — the invalid row is dropped
rather than raising — while the reported total remains N. -/
theorem getList_tolerant {Dto : Type} (F : Facade Dto) (db : List Row)
    (filters : Filters) (fc : Clause) (loads : List Load)
    (hf : get_filter_criteria F.model filters FilterOperator.OR = .ok (fc, loads))
    (hone : (db.filter fun r => fc.eval r).countP
        (fun r => (mapping_from_entity_to_dto_or_none F r).isNone) = 1) :
    ∃ data, facade_get_list F db (some (0, 0)) none none none filters
        = .ok (data, (db.filter fun r => fc.eval r).length)
      ∧ data.length + 1 = (db.filter fun r => fc.eval r).length := by
  have hq := get_filter_query_none F.model filters none fc loads hf
  have hap := apply_paginated_zeros_sort F.model
    [fc, emptyGroupClause ((none : Option FilterOperator).getD FilterOperator.OR)]
    loads.eraseDups default_sort_by
  have hrun := run_filter_sort fc
    (emptyGroupClause ((none : Option FilterOperator).getD FilterOperator.OR))
    loads.eraseDups (get_sort_criteria F.model default_sort_by)
    (emptyGroupClause_eval _) db
  have hga : get_and_count F.model db 0 0 (some default_sort_by) none none filters
      = .ok ((match get_sort_criteria F.model default_sort_by with
              | [] => db.filter fun r => fc.eval r
              | _ => sortRowsBy (rowLe (get_sort_criteria F.model default_sort_by))
                       (db.filter fun r => fc.eval r)),
             (db.filter fun r => fc.eval r).length) := by
    simp only [get_and_count, hq, bind, Except.bind, hap, hrun,
      run_filter_only fc _ _ (emptyGroupClause_eval _) db]
  have hfl : facade_get_list F db (some (0, 0)) none none none filters
      = .ok ((match get_sort_criteria F.model default_sort_by with
              | [] => db.filter fun r => fc.eval r
              | _ => sortRowsBy (rowLe (get_sort_criteria F.model default_sort_by))
                       (db.filter fun r => fc.eval r)).filterMap
                (fun e => mapping_from_entity_to_dto_or_none F e),
             (db.filter fun r => fc.eval r).length) := by
    simp only [facade_get_list, Option.getD_some, hga, bind, Except.bind, db_catch_exception]
  refine ⟨_, hfl, ?_⟩
  have hcount := length_filterMap_add_countP
    (fun e => mapping_from_entity_to_dto_or_none F e)
    (match get_sort_criteria F.model default_sort_by with
     | [] => db.filter fun r => fc.eval r
     | _ => sortRowsBy (rowLe (get_sort_criteria F.model default_sort_by))
              (db.filter fun r => fc.eval r))
  rcases hs : get_sort_criteria F.model default_sort_by with _ | ⟨s0, srest⟩
  · rw [hs] at hcount
    simp only at hcount ⊢
    omega
  · rw [hs] at hcount
    simp only at hcount ⊢
    rw [sortRowsBy_countP, sortRowsBy_length, hone] at hcount
    omega

/-- Witness for C4: three rows match, the middle of which fails validation;
two DTOs come back, the total stays three. -/
theorem getList_tolerant_witness :
    ∃ data, facade_get_list wFacade [wr1, wr3, wr2] (some (0, 0)) none none none
        ([] : Filters) = .ok (data, 3)
      ∧ data.length + 1 = 3 :=
  getList_tolerant wFacade [wr1, wr3, wr2] [] (.or_ []) [] (by decide) (by decide)

/-- C8: `update_by_key` on the update-DTO's explicitly-set fields stamps
`updated_at` to the current time no matter what the caller supplied, and every
field the caller never touched (other than `updated_at`) keeps its prior
value — untouched fields are not nulled out. -/
theorem updateByKey_frame (resource : String) (model : Model)
    (db : List Row) (now key : Value) (data : List (String × Value)) (r : Row)
    (hfind : get_by_key db key = some r)
    (hid : ∀ kv ∈ data, kv.1 ≠ "id") :
    ∃ db2 e, update_by_key resource model db now key
        (mapping_from_dto_update_to_dict data) = .ok (db2, e)
      ∧ rowGet e "updated_at" = now
      ∧ (∀ f, f ∉ data.map Prod.fst → f ≠ "updated_at" → rowGet e f = rowGet r f) := by
  have hidkeys : "id" ∉ data.map Prod.fst := by
    intro hmem
    obtain ⟨kv, hkv, hfst⟩ := List.mem_map.mp hmem
    exact hid kv hkv hfst
  have hkw_id : "id" ∉ (dictMerge data "updated_at" now).map Prod.fst :=
    dictMerge_keys_subset data "updated_at" now "id" hidkeys (by decide)
  have hpres : ∀ x : Row,
      ((rowGet (if rowGet x "id" == key then
          applyUpdates (dictMerge data "updated_at" now) x else x) "id" == key))
        = (rowGet x "id" == key) := by
    intro x
    by_cases hx : (rowGet x "id" == key) = true
    · rw [if_pos hx, rowGet_applyUpdates_not_mem _ _ _ hkw_id]
    · rw [if_neg hx]
  have hfind2 : get_by_key (db.map fun x => if rowGet x "id" == key then
      applyUpdates (dictMerge data "updated_at" now) x else x) key
      = some (applyUpdates (dictMerge data "updated_at" now) r) := by
    unfold get_by_key at hfind ⊢
    rw [find?_map_pred _ _ _ hpres, hfind]
    have hp := List.find?_some hfind
    simp only at hp
    simp [hp]
    intro hc
    exact absurd (eq_of_beq hp) hc
  refine ⟨db.map fun x => if rowGet x "id" == key then
      applyUpdates (dictMerge data "updated_at" now) x else x,
    applyUpdates (dictMerge data "updated_at" now) r, ?_, ?_, ?_⟩
  · simp only [update_by_key, mapping_from_dto_update_to_dict, get_by_key_or_fail,
      hfind2, bind, Except.bind]
  · exact rowGet_applyUpdates_const _ _ _ _ (dictMerge_const data "updated_at" now)
      (dictMerge_key_mem data "updated_at" now)
  · intro f hf hfu
    exact rowGet_applyUpdates_not_mem _ _ _
      (dictMerge_keys_subset data "updated_at" now f hf hfu)

/-- Witness for C8: updating only `b` on a row stamps `updated_at` and leaves
`a` at its prior value. -/
theorem updateByKey_frame_witness :
    ∃ db2 e, update_by_key "res" wModel [wr1] (Value.vint 99) (Value.vint 1)
        (mapping_from_dto_update_to_dict [("b", Value.vint 7)]) = .ok (db2, e)
      ∧ rowGet e "updated_at" = Value.vint 99
      ∧ rowGet e "a" = rowGet wr1 "a" := by
  obtain ⟨db2, e, h1, h2, h3⟩ := updateByKey_frame "res" wModel [wr1]
    (Value.vint 99) (Value.vint 1) [("b", Value.vint 7)] wr1 (by decide) (by decide)
  exact ⟨db2, e, h1, h2, h3 "a" (by decide) (by decide)⟩

end Arquea
